import Mathlib

/-!
Verification of the tabularxr/relays stream-relay core against its
natural-language specification.

Shallow embedding conventions:
* Go byte buffers (`[]byte`) are `List Nat`, each element a byte value;
  the only byte operation used is XOR, under which `Nat.xor` agrees with
  byte XOR (no overflow).
* Go `float64` fields (pose coordinates, quaternion components,
  similarity ratios) are embedded as `ℚ` with exact arithmetic; every
  comparison the code performs is against a constant (±1000, 0.9, 1.1,
  0.8) at which the rational and double comparisons agree for all
  feasible inputs.
* Go `int64` is `Int`; where the source can overflow (the `*= 1000` in
  `NormalizeTimestamp`) the multiplication is wrapped with `wrap64`,
  two's-complement reduction modulo 2^64.
* Go maps (`map[string][]byte`, `map[string]string`) are association
  lists; `mapSet` models Go map assignment (replace-or-insert) and
  `mapLookup` models map indexing with `ok` flag.
* Library calls whose behaviour the repository does not control (gzip
  compression and decompression, HTTP transport) are oracle parameters:
  `Option`-valued functions where `none` is the library-error case; the
  source swallows those errors, and every theorem below quantifies over
  the oracle.
* `uuid.New().String()` is a per-process stream of fresh strings,
  modelled as a generator `gen : Nat → String` together with a counter
  in the component state; claims about uniqueness take the generator's
  injectivity as a hypothesis, mirroring the spec's "effective
  uniqueness per process".
-/

namespace Relay

/-- A Go `[]byte` buffer: list of byte values. -/
abbrev Buf := List Nat

/-- Pose payload (`types.PoseData`): position `x,y,z` and a quaternion
`rotation = (qx, qy, qz, qw)`, all `float64` embedded as `ℚ`. -/
structure PoseData where
  x : ℚ
  y : ℚ
  z : ℚ
  rotation : ℚ × ℚ × ℚ × ℚ
deriving DecidableEq, Repr, Inhabited

/-- Mesh payload (`types.MeshData`): vertex buffer, face buffer, anchor id. -/
structure MeshData where
  vertices : Buf
  faces : Buf
  anchorID : String
deriving DecidableEq, Repr, Inhabited

/-- `types.PacketData`: at most one of pose / mesh, Go nil-pointers as `Option`. -/
structure PacketData where
  pose : Option PoseData
  mesh : Option MeshData
deriving DecidableEq, Repr, Inhabited

/-- Inbound envelope (`types.StreamPacket`). -/
structure StreamPacket where
  sessionID : String
  frameNumber : Int
  timestamp : Int
  type : String
  data : PacketData
deriving DecidableEq, Repr, Inhabited

/-- `types.Anchor`: anchor record inside a spatial event. -/
structure Anchor where
  id : String
  pose : PoseData
  timestamp : Int
deriving DecidableEq, Repr, Inhabited

/-- `types.MeshDiff`: possibly delta-encoded mesh change. -/
structure MeshDiff where
  anchorID : String
  verticesDelta : Buf
  facesDelta : Buf
  isDelta : Bool
deriving DecidableEq, Repr, Inhabited

/-- Outbound unit (`types.SpatialEvent`). -/
structure SpatialEvent where
  sessionID : String
  eventID : String
  timestamp : Int
  anchors : List Anchor
  meshes : List MeshDiff
deriving DecidableEq, Repr, Inhabited

/-- Association-list lookup, modelling Go `v, ok := m[k]`. -/
def mapLookup {β : Type} : List (String × β) → String → Option β
  | [], _ => none
  | (k, v) :: rest, s => if s = k then some v else mapLookup rest s

/-- Association-list update, modelling Go `m[k] = v` (replace-or-insert). -/
def mapSet {β : Type} (m : List (String × β)) (k : String) (v : β) :
    List (String × β) :=
  (k, v) :: m.filter (fun p => p.1 ≠ k)

theorem mapLookup_set_self {β : Type} (m : List (String × β)) (k : String) (v : β) :
    mapLookup (mapSet m k v) k = some v := by
  simp [mapSet, mapLookup]

/-- Number of entries an association list holds for a key. -/
def countKey {β : Type} (m : List (String × β)) (k : String) : Nat :=
  (m.filter (fun p => p.1 = k)).length

theorem countKey_set_self {β : Type} (m : List (String × β)) (k : String) (v : β) :
    countKey (mapSet m k v) k = 1 := by
  have h : ∀ l : List (String × β),
      (l.filter (fun p => p.1 ≠ k)).filter (fun p => p.1 = k) = [] := by
    intro l
    induction l with
    | nil => simp
    | cons p rest ih =>
      by_cases hp : p.1 = k <;> simp [List.filter, hp, ih]
  simp [countKey, mapSet, List.filter, h]

/-! ## Updater: mesh delta encoding (`internal/updater/updater.go`) -/

/-- `calculateVertexSimilarity`: fraction of byte positions where the two
buffers agree; 0 on length mismatch, 1 on two empty buffers. -/
def countMatches : Buf → Buf → Nat
  | [], _ => 0
  | _, [] => 0
  | x :: xs, y :: ys => (if x = y then 1 else 0) + countMatches xs ys

def calculateVertexSimilarity (a b : Buf) : ℚ :=
  if a.length ≠ b.length then 0
  else if a.length = 0 then 1
  else (countMatches a b : ℚ) / (a.length : ℚ)

/-- `createVertexDelta`: byte-wise XOR delta; returns the new buffer
unchanged when the lengths differ. -/
def createVertexDelta (old new : Buf) : Buf :=
  if old.length ≠ new.length then new
  else List.zipWith Nat.xor old new

/-- The Go size test `len(delta) < int(float64(len(new))*0.7)`.
For every feasible buffer length `n` (far below 2^50, where the double
rounding of `float64(n)*0.7` cannot cross an integer) the truncated
product equals `7 * n / 10` in integer arithmetic; the only fact any
theorem uses is that the threshold is strictly below `n` for `n ≥ 1`,
which holds for both readings. -/
def deltaSizeThreshold (n : Nat) : Nat := 7 * n / 10

/-- The remembered-vertex map `lastMeshes : map[string][]byte`. -/
abbrev MeshMap := List (String × Buf)

/-- Loop body of `applyMeshDiffing` for one incoming `MeshDiff`:
returns the updated `lastMeshes` map and the mesh to emit.  The Go
locals `similarity` and `delta` are inlined. -/
def processMesh (last : MeshMap) (mesh : MeshDiff) : MeshMap × MeshDiff :=
  if mesh.isDelta then
    (last, mesh)
  else
    match mapLookup last mesh.anchorID with
    | none =>
      (mapSet last mesh.anchorID mesh.verticesDelta, mesh)
    | some lastVertices =>
      if lastVertices.length = 0 then
        (mapSet last mesh.anchorID mesh.verticesDelta, mesh)
      else
        if calculateVertexSimilarity lastVertices mesh.verticesDelta > (8 : ℚ) / 10 then
          if (createVertexDelta lastVertices mesh.verticesDelta).length <
              deltaSizeThreshold mesh.verticesDelta.length then
            (mapSet last mesh.anchorID mesh.verticesDelta,
             { anchorID := mesh.anchorID,
               verticesDelta := createVertexDelta lastVertices mesh.verticesDelta,
               facesDelta := mesh.facesDelta, isDelta := true })
          else
            (mapSet last mesh.anchorID mesh.verticesDelta, mesh)
        else
          (mapSet last mesh.anchorID mesh.verticesDelta, mesh)

/-- The `for _, mesh := range event.Meshes` loop of `applyMeshDiffing`. -/
def processMeshes (last : MeshMap) : List MeshDiff → MeshMap × List MeshDiff
  | [] => (last, [])
  | m :: ms =>
    let r := processMesh last m
    let rs := processMeshes r.1 ms
    (rs.1, r.2 :: rs.2)

/-- `applyMeshDiffing`: rewrites the meshes of one event, threading the
remembered-vertex map. -/
def applyMeshDiffing (last : MeshMap) (event : SpatialEvent) :
    MeshMap × SpatialEvent :=
  if event.meshes = [] then (last, event)
  else
    let r := processMeshes last event.meshes
    (r.1, { event with meshes := r.2 })

theorem similarity_gt_length_eq (a b : Buf)
    (h : calculateVertexSimilarity a b > (8 : ℚ) / 10) : a.length = b.length := by
  by_contra hne
  simp only [calculateVertexSimilarity, if_pos hne] at h
  norm_num at h

theorem createVertexDelta_length (a b : Buf) (h : a.length = b.length) :
    (createVertexDelta a b).length = b.length := by
  simp [createVertexDelta, h]

/-- The delta branch of `processMesh` is unreachable: the emitted mesh is
always the incoming one, because the XOR delta has the same length as the
new buffer and `7 * n / 10 < n` never holds. -/
theorem processMesh_emits_input (last : MeshMap) (mesh : MeshDiff) :
    (processMesh last mesh).2 = mesh := by
  unfold processMesh
  split
  · rfl
  · split
    · rfl
    · split
      · rfl
      · split
        · split
          · exfalso
            rename_i lastVertices _ _ hsim hsize
            have hl : lastVertices.length = mesh.verticesDelta.length :=
              similarity_gt_length_eq _ _ hsim
            rw [createVertexDelta_length _ _ hl] at hsize
            unfold deltaSizeThreshold at hsize
            omega
          · rfl
        · rfl

/-! ## Updater: batching state and HTTP delivery (`flushBatch`, `sendToSTAG`) -/

/-- The Updater state the delivery path touches: the pending batch
(`eventQueue`) and the remembered-vertex map (`lastMeshes`). -/
structure UpdaterState where
  eventQueue : List SpatialEvent
  lastMeshes : MeshMap
deriving DecidableEq, Repr, Inhabited

/-- On-wire compression step of `sendToSTAG`: for every mesh with a
non-empty vertex payload, gzip it through the oracle `gz`; a `none`
(gzip error) is logged and the uncompressed payload kept.  This rewrites
only the outgoing copy of the batch. -/
def compressEventMeshes (gz : Buf → Option Buf) (e : SpatialEvent) : SpatialEvent :=
  { e with meshes := e.meshes.map (fun m =>
      if m.verticesDelta.length > 0 then
        match gz m.verticesDelta with
        | some c => { m with verticesDelta := c }
        | none => m
      else m) }

/-- Status check of `sendToSTAG`: `resp = none` models a transport error
from `httpClient.Do`; `some s` a response with HTTP status `s`.  The
source accepts exactly `http.StatusOK` (200): `resp.StatusCode != http.StatusOK`
is an error.  JSON marshalling of the batch cannot fail for these
payloads and is not modelled. -/
def sendOutcome (resp : Option Nat) : Except String Unit :=
  match resp with
  | none => Except.error "failed to send request"
  | some status =>
    if status ≠ 200 then Except.error "STAG returned status" else Except.ok ()

/-- `sendToSTAG`: returns the batch as put on the wire and the outcome.
Empty batches are skipped (`return nil` before any request). -/
def sendToSTAG (gz : Buf → Option Buf) (resp : Option Nat)
    (events : List SpatialEvent) : List SpatialEvent × Except String Unit :=
  if events = [] then ([], Except.ok ())
  else (events.map (compressEventMeshes gz), sendOutcome resp)

/-- `flushBatch`: under the queue lock, copy the pending events and clear
the queue; then send.  The send outcome is only logged (`// TODO:
Implement retry logic or dead letter queue`): it never feeds back into
the state. -/
def flushBatch (gz : Buf → Option Buf) (resp : Option Nat) (st : UpdaterState) :
    UpdaterState × List SpatialEvent × Except String Unit :=
  if st.eventQueue = [] then (st, [], Except.ok ())
  else ({ st with eventQueue := [] }, sendToSTAG gz resp st.eventQueue)

/-! ## Claim theorems on the Updater -/

theorem processMesh_state (last : MeshMap) (mesh : MeshDiff)
    (h : mesh.isDelta = false) :
    (processMesh last mesh).1 = mapSet last mesh.anchorID mesh.verticesDelta := by
  unfold processMesh
  rw [if_neg (by simp [h])]
  split
  · rfl
  · split
    · rfl
    · split
      · split
        · rfl
        · rfl
      · rfl

/-- C6: after `applyMeshDiffing`'s loop body handles a non-delta mesh-diff
for anchor `A`, the remembered-vertex map holds exactly one buffer for `A`
and it equals the incoming (pre-delta) vertex buffer, in every branch. -/
theorem C6_remembered_buffer (last : MeshMap) (mesh : MeshDiff)
    (h : mesh.isDelta = false) :
    mapLookup (processMesh last mesh).1 mesh.anchorID = some mesh.verticesDelta ∧
    countKey (processMesh last mesh).1 mesh.anchorID = 1 := by
  rw [processMesh_state last mesh h]
  exact ⟨mapLookup_set_self _ _ _, countKey_set_self _ _ _⟩

theorem C6_remembered_buffer_witness :
    mapLookup (processMesh [("a1", [5, 5])] ⟨"a1", [5, 6], [], false⟩).1 "a1"
        = some [5, 6] ∧
    countKey (processMesh [("a1", [5, 5])] ⟨"a1", [5, 6], [], false⟩).1 "a1" = 1 :=
  C6_remembered_buffer [("a1", [5, 5])] ⟨"a1", [5, 6], [], false⟩ rfl

theorem xor_xor_cancel (a b : Nat) : Nat.xor a (Nat.xor a b) = b := by
  show a ^^^ (a ^^^ b) = b
  rw [← Nat.xor_assoc, Nat.xor_self, Nat.zero_xor]

theorem zipWith_xor_cancel (old new : Buf) (h : old.length = new.length) :
    List.zipWith Nat.xor old (List.zipWith Nat.xor old new) = new := by
  induction old generalizing new with
  | nil =>
    cases new with
    | nil => rfl
    | cons b bs => simp at h
  | cons a as ih =>
    cases new with
    | nil => simp at h
    | cons b bs =>
      simp only [List.zipWith]
      rw [xor_xor_cancel, ih bs (by simpa using h)]

/-- C8: for equal-length buffers, XORing `old` with the delta produced by
`createVertexDelta old new` yields `new` byte-wise. -/
theorem C8_xor_roundtrip (old new : Buf) (h : old.length = new.length) :
    List.zipWith Nat.xor old (createVertexDelta old new) = new := by
  unfold createVertexDelta
  rw [if_neg (by omega)]
  exact zipWith_xor_cancel old new h

theorem C8_xor_roundtrip_witness :
    List.zipWith Nat.xor [1, 2, 3] (createVertexDelta [1, 2, 3] [7, 255, 0])
      = [7, 255, 0] :=
  C8_xor_roundtrip [1, 2, 3] [7, 255, 0] (by decide)

/-- The stored buffer and the incoming buffer of the C1 failing input:
equal length 12, differing in the first two bytes, so the byte-wise
similarity is 10/12 > 0.8. -/
def c1_oldBuf : Buf := [0, 1, 2, 3, 4, 5, 6, 7, 8, 9, 10, 11]

def c1_newBuf : Buf := [99, 98, 2, 3, 4, 5, 6, 7, 8, 9, 10, 11]

/-- C1: with a remembered equal-length buffer of similarity above 0.8,
the code still emits the incoming mesh unchanged (`is_delta = false`):
the XOR delta has the same length as the new buffer, so the size test
`len(delta) < int(0.7 * len(new))` is always false and the delta branch
is dead — contradicting the claim (and the code's own intent) that the
delta is emitted. -/
theorem C1_delta_not_emitted :
    calculateVertexSimilarity c1_oldBuf c1_newBuf > (8 : ℚ) / 10 ∧
    c1_oldBuf.length = c1_newBuf.length ∧
    (processMesh [("a1", c1_oldBuf)] ⟨"a1", c1_newBuf, [], false⟩).2 =
      ⟨"a1", c1_newBuf, [], false⟩ :=
  ⟨by norm_num [calculateVertexSimilarity, c1_oldBuf, c1_newBuf, countMatches],
   by decide, processMesh_emits_input _ _⟩

/-- C2 (amended): the post-flush state is independent of the delivery
outcome — the remembered-vertex map is untouched, the pending queue is
cleared before the send and never refilled from a failed batch (no
retry) — and for a non-empty batch the delivery succeeds exactly when
the transport works and the sink answers status 200. -/
theorem C2_delivery_no_retry (gz : Buf → Option Buf) (resp : Option Nat)
    (st : UpdaterState) :
    (flushBatch gz resp st).1 = (flushBatch gz none st).1 ∧
    (flushBatch gz resp st).1.lastMeshes = st.lastMeshes ∧
    (flushBatch gz resp st).1.eventQueue = [] ∧
    ((flushBatch gz resp st).2.1 ≠ [] →
      (((flushBatch gz resp st).2.2).isOk = true ↔ resp = some 200)) := by
  unfold flushBatch sendToSTAG
  by_cases hq : st.eventQueue = []
  · refine ⟨by simp [hq], by simp [hq], by simp [hq], ?_⟩
    intro hne
    exact absurd (by simp [hq]) hne
  · refine ⟨by simp [hq], by simp [hq], by simp [hq], ?_⟩
    intro _
    simp only [if_neg hq, if_neg hq]
    cases resp with
    | none => simp [sendOutcome, Except.isOk, Except.toBool]
    | some s =>
      by_cases hs : s = 200
      · simp [sendOutcome, hs, Except.isOk, Except.toBool]
      · simp [sendOutcome, hs, Except.isOk, Except.toBool]

/-- C2 counterexample: status 201 is a 2xx response, yet the code treats
it as a failure (`resp.StatusCode != http.StatusOK`). -/
theorem C2_counterexample_status_201 :
    (200 ≤ 201 ∧ 201 < 300) ∧ (sendOutcome (some 201)).isOk = false := by
  constructor
  · exact ⟨by norm_num, by norm_num⟩
  · rfl

def c2_event : SpatialEvent :=
  { sessionID := "s1", eventID := "e1", timestamp := 5, anchors := [], meshes := [] }

theorem C2_delivery_no_retry_witness :
    ((flushBatch (fun _ => none) (some 500) ⟨[c2_event], []⟩).2.1 ≠ [] →
      (((flushBatch (fun _ => none) (some 500) ⟨[c2_event], []⟩).2.2).isOk = true ↔
        some 500 = some 200)) ∧
    (flushBatch (fun _ => none) (some 500) ⟨[c2_event], []⟩).2.1 ≠ [] :=
  ⟨((C2_delivery_no_retry (fun _ => none) (some 500) ⟨[c2_event], []⟩).2.2.2),
   by decide⟩

/-! ## Parser (`src/unnamed/part_007`, package parser) -/

/-- `validatePacket`: basic shape validation. -/
def validatePacket (packet : StreamPacket) : Except String Unit :=
  if packet.sessionID = "" then Except.error "missing session_id"
  else if packet.timestamp ≤ 0 then Except.error "invalid timestamp"
  else if packet.type = "" then Except.error "missing packet type"
  else Except.ok ()

/-- The local `magnitude` of `validatePose`: squared quaternion norm. -/
def quatMagnitudeSq (pose : PoseData) : ℚ :=
  pose.rotation.1 * pose.rotation.1 + pose.rotation.2.1 * pose.rotation.2.1 +
  pose.rotation.2.2.1 * pose.rotation.2.2.1 + pose.rotation.2.2.2 * pose.rotation.2.2.2

/-- `validatePose`: position bounds and quaternion normalisation check. -/
def validatePose (pose : PoseData) : Except String Unit :=
  if pose.x < -1000 ∨ pose.x > 1000 ∨
     pose.y < -1000 ∨ pose.y > 1000 ∨
     pose.z < -1000 ∨ pose.z > 1000 then
    Except.error "pose position out of bounds"
  else if quatMagnitudeSq pose < (9 : ℚ) / 10 ∨
      quatMagnitudeSq pose > (11 : ℚ) / 10 then
    Except.error "quaternion not normalized"
  else Except.ok ()

/-- `parsePosePacket`: requires a pose payload, validates it, returns the
packet unchanged (pose packets are not decompressed). -/
def parsePosePacket (packet : StreamPacket) : Except String StreamPacket :=
  match packet.data.pose with
  | none => Except.error "missing pose data"
  | some pose =>
    match validatePose pose with
    | Except.error e => Except.error ("invalid pose: " ++ e)
    | Except.ok _ => Except.ok packet

/-- `decompressGzip`: try the gzip oracle; any library failure (not a
gzip stream, or read error) falls back to the raw bytes, never an error. -/
def decompressGzip (gunzip : Buf → Option Buf) (data : Buf) : Buf :=
  match gunzip data with
  | none => data
  | some result => result

/-- `decompressDraco`: empty buffers pass through, otherwise gzip
(the Draco path is not implemented in this library). -/
def decompressDraco (gunzip : Buf → Option Buf) (data : Buf) : Buf :=
  if data.length = 0 then data else decompressGzip gunzip data

/-- `parseMeshPacket`: requires a mesh payload with non-empty vertices and
anchor id, then substitutes the decompressed buffers. -/
def parseMeshPacket (gunzip : Buf → Option Buf) (packet : StreamPacket) :
    Except String StreamPacket :=
  match packet.data.mesh with
  | none => Except.error "missing mesh data"
  | some mesh =>
    if mesh.vertices.length = 0 then Except.error "empty vertices data"
    else if mesh.anchorID = "" then Except.error "missing anchor_id"
    else
      Except.ok { packet with data :=
        { packet.data with mesh := some (
          { vertices := decompressDraco gunzip mesh.vertices,
            faces := if mesh.faces.length > 0
                     then decompressDraco gunzip mesh.faces else [],
            anchorID := mesh.anchorID : MeshData }) } }

/-- `ParsePacket`: structural validation, then the per-type parser; any
other type is rejected.  The Go `switch` is an if-chain on the type. -/
def ParsePacket (gunzip : Buf → Option Buf) (packet : StreamPacket) :
    Except String StreamPacket :=
  match validatePacket packet with
  | Except.error e => Except.error ("invalid packet: " ++ e)
  | Except.ok _ =>
    if packet.type = "pose" then parsePosePacket packet
    else if packet.type = "mesh" then parseMeshPacket gunzip packet
    else Except.error ("unknown packet type: " ++ packet.type)

/-! ## Transformer (`internal/transformer/transformer.go`) -/

/-- Transformer state: the session-to-anchor-id map and the position in
the process-wide uuid stream (`uuid.New()` calls consumed so far). -/
structure Transformer where
  anchorMap : List (String × String)
  ctr : Nat
deriving DecidableEq, Repr, Inhabited

/-- `transformer.New()`: empty anchor map, fresh uuid stream. -/
def Transformer.empty : Transformer := ⟨[], 0⟩

/-- `getOrCreateAnchorID`: return the stored anchor id for the session,
or mint `anchor_<uuid>` and store it. -/
def getOrCreateAnchorID (gen : Nat → String) (t : Transformer)
    (sessionID : String) : String × Transformer :=
  match mapLookup t.anchorMap sessionID with
  | some anchorID => (anchorID, t)
  | none =>
    ("anchor_" ++ gen t.ctr,
     { anchorMap := mapSet t.anchorMap sessionID ("anchor_" ++ gen t.ctr),
       ctr := t.ctr + 1 })

/-- `transformPose`: nil payload returns the base event untouched;
otherwise append one anchor with the session's stable anchor id. -/
def transformPose (gen : Nat → String) (t : Transformer)
    (event : SpatialEvent) (packet : StreamPacket) :
    Except String SpatialEvent × Transformer :=
  match packet.data.pose with
  | none => (Except.ok event, t)
  | some pose =>
    let r := getOrCreateAnchorID gen t packet.sessionID
    (Except.ok { event with anchors :=
        event.anchors ++ [{ id := r.1, pose := pose, timestamp := packet.timestamp }] },
     r.2)

/-- `transformMesh`: nil payload returns the base event untouched;
otherwise append one full (non-delta) mesh diff carrying the
client-supplied anchor id. -/
def transformMesh (t : Transformer) (event : SpatialEvent)
    (packet : StreamPacket) : Except String SpatialEvent × Transformer :=
  match packet.data.mesh with
  | none => (Except.ok event, t)
  | some mesh =>
    (Except.ok { event with meshes :=
        event.meshes ++ [{ anchorID := mesh.anchorID, verticesDelta := mesh.vertices,
                           facesDelta := mesh.faces, isDelta := false }] },
     t)

/-- `Transform`: build the base event (fresh event id, copied session id
and timestamp, empty lists) and dispatch on the packet type; unknown
types return the empty event.  All paths return a nil error. -/
def Transform (gen : Nat → String) (t : Transformer) (packet : StreamPacket) :
    Except String SpatialEvent × Transformer :=
  let t' : Transformer := { t with ctr := t.ctr + 1 }
  let event : SpatialEvent :=
    { sessionID := packet.sessionID, eventID := gen t.ctr,
      timestamp := packet.timestamp, anchors := [], meshes := [] }
  if packet.type = "pose" then transformPose gen t' event packet
  else if packet.type = "mesh" then transformMesh t' event packet
  else (Except.ok event, t')

/-- Two's-complement reduction of Go `int64` arithmetic. -/
def wrap64 (x : Int) : Int := (x + 2 ^ 63) % 2 ^ 64 - 2 ^ 63

/-- `NormalizeTimestamp` evaluated against the server clock `now` (Unix
milliseconds): seconds-scale values are multiplied to milliseconds, and
results outside `[now − 1h, now + 1min]` are replaced by `now`. -/
def NormalizeTimestamp (now timestamp : Int) : Int :=
  let t := if timestamp < 1000000000000 then wrap64 (timestamp * 1000) else timestamp
  if t > wrap64 (now + 60000) ∨ t < wrap64 (now - 3600000) then now else t

/-- `ValidateEvent`: final validation on a transformed event. -/
def ValidateEvent (event : SpatialEvent) : Except String Unit :=
  if event.sessionID = "" then Except.error "missing session ID"
  else if event.eventID = "" then Except.error "missing event ID"
  else if event.timestamp ≤ 0 then Except.error "invalid timestamp"
  else Except.ok ()

/-- One Transformer lifetime: process a list of packets in order,
collecting the produced events. -/
def runTransform (gen : Nat → String) (t : Transformer) :
    List StreamPacket → List SpatialEvent × Transformer
  | [] => ([], t)
  | p :: ps =>
    match Transform gen t p with
    | (Except.ok e, t') =>
      let r := runTransform gen t' ps
      (e :: r.1, r.2)
    | (Except.error _, t') =>
      let r := runTransform gen t' ps
      (r.1, r.2)

/-! ## Claim theorems on the Transformer -/

theorem wrap64_eq_self (x : Int) (h1 : -(2 ^ 63) ≤ x) (h2 : x < 2 ^ 63) :
    wrap64 x = x := by
  unfold wrap64
  omega

/-- C7: against a server clock `now` (both arguments in the `int64`
range where the source's arithmetic does not wrap), `NormalizeTimestamp`
first scales a seconds-valued `t < 10^12` by 1000, then clamps values
more than one minute ahead or one hour behind `now` to `now`, and passes
everything else through. -/
theorem C7_normalize_timestamp (now t : Int)
    (h1 : 0 ≤ now) (h2 : now ≤ 2 ^ 62) (h3 : -(10 ^ 15) ≤ t) (h4 : t ≤ 2 ^ 62) :
    NormalizeTimestamp now t =
      (if (if t < 10 ^ 12 then t * 1000 else t) > now + 60000 ∨
          (if t < 10 ^ 12 then t * 1000 else t) < now - 3600000 then now
       else (if t < 10 ^ 12 then t * 1000 else t)) := by
  simp only [NormalizeTimestamp]
  have w1 : wrap64 (now + 60000) = now + 60000 :=
    wrap64_eq_self _ (by omega) (by omega)
  have w2 : wrap64 (now - 3600000) = now - 3600000 :=
    wrap64_eq_self _ (by omega) (by omega)
  rw [w1, w2]
  by_cases ht : t < 1000000000000
  · have w3 : wrap64 (t * 1000) = t * 1000 :=
      wrap64_eq_self _ (by omega) (by omega)
    rw [if_pos ht, if_pos (show t < 10 ^ 12 by omega), w3]
  · rw [if_neg ht, if_neg (show ¬ t < 10 ^ 12 by omega)]

theorem C7_normalize_timestamp_witness :
    NormalizeTimestamp 1700000000000 1699999999 =
      (if (if (1699999999 : Int) < 10 ^ 12 then 1699999999 * 1000 else 1699999999)
            > 1700000000000 + 60000 ∨
          (if (1699999999 : Int) < 10 ^ 12 then 1699999999 * 1000 else 1699999999)
            < 1700000000000 - 3600000 then 1700000000000
       else (if (1699999999 : Int) < 10 ^ 12 then 1699999999 * 1000 else 1699999999)) :=
  C7_normalize_timestamp 1700000000000 1699999999
    (by omega) (by omega) (by omega) (by omega)

theorem Transform_never_errors (gen : Nat → String) (t : Transformer)
    (packet : StreamPacket) :
    ∃ e, (Transform gen t packet).1 = Except.ok e := by
  simp only [Transform]
  by_cases hp : packet.type = "pose"
  · simp only [if_pos hp, transformPose]
    cases packet.data.pose <;> exact ⟨_, rfl⟩
  · by_cases hm : packet.type = "mesh"
    · simp only [if_neg hp, if_pos hm, transformMesh]
      cases packet.data.mesh <;> exact ⟨_, rfl⟩
    · simp only [if_neg hp, if_neg hm]
      exact ⟨_, rfl⟩

/-- C10: `Transform` never returns an error; and on a packet whose
payload pointer is nil (a pose packet without pose data, or a mesh
packet without mesh data) the produced event has no anchors and no
meshes and the session-to-anchor-id map is untouched. -/
theorem C10_transform_total_nil_payload (gen : Nat → String) (t : Transformer)
    (packet : StreamPacket) :
    (∃ e, (Transform gen t packet).1 = Except.ok e) ∧
    ((packet.type = "pose" ∧ packet.data.pose = none) ∨
     (packet.type = "mesh" ∧ packet.data.mesh = none) →
      ∀ e, (Transform gen t packet).1 = Except.ok e →
        e.anchors = [] ∧ e.meshes = [] ∧
        (Transform gen t packet).2.anchorMap = t.anchorMap) := by
  refine ⟨Transform_never_errors gen t packet, ?_⟩
  rintro (⟨hty, hnil⟩ | ⟨hty, hnil⟩) e he
  · simp only [Transform, if_pos hty, transformPose, hnil] at he
    injection he with he
    subst he
    exact ⟨rfl, rfl, by simp [Transform, if_pos hty, transformPose, hnil]⟩
  · have hne : packet.type ≠ "pose" := by rw [hty]; decide
    simp only [Transform, if_neg hne, if_pos hty, transformMesh, hnil] at he
    injection he with he
    subst he
    exact ⟨rfl, rfl, by simp [Transform, if_neg hne, if_pos hty, transformMesh, hnil]⟩

def c10_packet : StreamPacket :=
  { sessionID := "s1", frameNumber := 1, timestamp := 5, type := "pose",
    data := { pose := none, mesh := none } }

theorem C10_transform_total_nil_payload_witness :
    ({ sessionID := "s1", eventID := "id", timestamp := 5,
       anchors := [], meshes := [] } : SpatialEvent).anchors = [] ∧
    ({ sessionID := "s1", eventID := "id", timestamp := 5,
       anchors := [], meshes := [] } : SpatialEvent).meshes = [] ∧
    (Transform (fun _ => "id") Transformer.empty c10_packet).2.anchorMap =
      Transformer.empty.anchorMap :=
  (C10_transform_total_nil_payload (fun _ => "id") Transformer.empty c10_packet).2
    (Or.inl ⟨rfl, rfl⟩) _ rfl

/-! ## Claim theorems on the Parser -/

theorem validatePacket_ok_facts (p : StreamPacket)
    (h : validatePacket p = Except.ok ()) :
    p.sessionID ≠ "" ∧ 0 < p.timestamp ∧ p.type ≠ "" := by
  unfold validatePacket at h
  split_ifs at h with h1 h2 h3
  exact ⟨h1, by omega, h3⟩

theorem parsePosePacket_ok (q p : StreamPacket)
    (h : parsePosePacket q = Except.ok p) : p = q := by
  unfold parsePosePacket at h
  split at h
  · simp at h
  · split at h
    · simp at h
    · injection h with h
      exact h.symm

theorem parseMeshPacket_ok (gunzip : Buf → Option Buf) (q p : StreamPacket)
    (h : parseMeshPacket gunzip q = Except.ok p) :
    ∃ qm, q.data.mesh = some qm ∧
      p = { q with data := { q.data with mesh := some (
            { vertices := decompressDraco gunzip qm.vertices,
              faces := if qm.faces.length > 0
                       then decompressDraco gunzip qm.faces else [],
              anchorID := qm.anchorID : MeshData }) } } := by
  unfold parseMeshPacket at h
  split at h
  · simp at h
  · rename_i qm heq
    split_ifs at h with hv ha hf
    · refine ⟨qm, heq, ?_⟩
      rw [if_pos hf]
      injection h with h
      exact h.symm
    · refine ⟨qm, heq, ?_⟩
      rw [if_neg hf]
      injection h with h
      exact h.symm

theorem decompressDraco_eq_or (gunzip : Buf → Option Buf) (v : Buf) :
    decompressDraco gunzip v = v ∨ gunzip v = some (decompressDraco gunzip v) := by
  unfold decompressDraco decompressGzip
  split
  · exact Or.inl rfl
  · split
    · exact Or.inl rfl
    · rename_i r hg
      exact Or.inr hg

/-- Shared characterisation of an accepted packet: structural validation
passed, the envelope fields are copied, and for mesh packets the vertex
buffer is the raw or gzip-decompressed input. -/
theorem ParsePacket_ok_spec (gunzip : Buf → Option Buf) (q p : StreamPacket)
    (h : ParsePacket gunzip q = Except.ok p) :
    validatePacket q = Except.ok () ∧
    p.sessionID = q.sessionID ∧ p.frameNumber = q.frameNumber ∧
    p.timestamp = q.timestamp ∧ p.type = q.type ∧
    (q.type = "mesh" → ∃ qm pm, q.data.mesh = some qm ∧ p.data.mesh = some pm ∧
      (pm.vertices = qm.vertices ∨ gunzip qm.vertices = some pm.vertices)) := by
  unfold ParsePacket at h
  split at h
  · simp at h
  · rename_i val hval
    cases val
    refine ⟨hval, ?_⟩
    split_ifs at h with hpose hmesh
    · obtain rfl := parsePosePacket_ok q p h
      refine ⟨rfl, rfl, rfl, rfl, ?_⟩
      intro hm
      rw [hpose] at hm
      exact absurd hm (by decide)
    · obtain ⟨qm, hqm, rfl⟩ := parseMeshPacket_ok gunzip q p h
      refine ⟨rfl, rfl, rfl, rfl, ?_⟩
      intro _
      exact ⟨qm, _, hqm, rfl, decompressDraco_eq_or gunzip qm.vertices⟩

/-- C4: `ParsePacket` preserves session id, frame number, timestamp and
type of every packet it accepts, and an accepted mesh packet's output
vertex buffer is byte-for-byte the input or its gzip decompression. -/
theorem C4_parser_preserves (gunzip : Buf → Option Buf) (q p : StreamPacket)
    (h : ParsePacket gunzip q = Except.ok p) :
    p.sessionID = q.sessionID ∧ p.frameNumber = q.frameNumber ∧
    p.timestamp = q.timestamp ∧ p.type = q.type ∧
    (q.type = "mesh" → ∃ qm pm, q.data.mesh = some qm ∧ p.data.mesh = some pm ∧
      (pm.vertices = qm.vertices ∨ gunzip qm.vertices = some pm.vertices)) :=
  (ParsePacket_ok_spec gunzip q p h).2

def c4_packet : StreamPacket :=
  { sessionID := "s1", frameNumber := 1, timestamp := 5, type := "mesh",
    data := { pose := none, mesh := some { vertices := [1, 2], faces := [],
                                           anchorID := "a1" } } }

theorem C4_parser_preserves_witness :
    c4_packet.sessionID = c4_packet.sessionID ∧
    c4_packet.frameNumber = c4_packet.frameNumber ∧
    c4_packet.timestamp = c4_packet.timestamp ∧
    c4_packet.type = c4_packet.type ∧
    (c4_packet.type = "mesh" →
      ∃ qm pm, c4_packet.data.mesh = some qm ∧ c4_packet.data.mesh = some pm ∧
        (pm.vertices = qm.vertices ∨ (fun _ => none) qm.vertices = some pm.vertices)) :=
  C4_parser_preserves (fun _ => none) c4_packet c4_packet rfl

/-! ## C9: events built from accepted packets pass `ValidateEvent` -/

theorem transform_ok_fields (gen : Nat → String) (t : Transformer)
    (p : StreamPacket) (e : SpatialEvent)
    (h : (Transform gen t p).1 = Except.ok e) :
    e.sessionID = p.sessionID ∧ e.eventID = gen t.ctr ∧
    e.timestamp = p.timestamp := by
  simp only [Transform] at h
  by_cases hp : p.type = "pose"
  · rw [if_pos hp] at h
    unfold transformPose at h
    split at h
    · injection h with h
      subst h
      exact ⟨rfl, rfl, rfl⟩
    · injection h with h
      subst h
      exact ⟨rfl, rfl, rfl⟩
  · rw [if_neg hp] at h
    by_cases hm : p.type = "mesh"
    · rw [if_pos hm] at h
      unfold transformMesh at h
      split at h
      · injection h with h
        subst h
        exact ⟨rfl, rfl, rfl⟩
      · injection h with h
        subst h
        exact ⟨rfl, rfl, rfl⟩
    · rw [if_neg hm] at h
      injection h with h
      subst h
      exact ⟨rfl, rfl, rfl⟩

/-- C9: an event built by `Transform` from a packet `ParsePacket`
accepted satisfies `ValidateEvent`: non-empty session id (copied from
the packet), non-empty freshly generated event id, and the packet's
positive timestamp. -/
theorem C9_transformed_events_valid (gen : Nat → String) (hgen : ∀ n, gen n ≠ "")
    (gunzip : Buf → Option Buf) (q p : StreamPacket) (t : Transformer)
    (e : SpatialEvent)
    (hp : ParsePacket gunzip q = Except.ok p)
    (he : (Transform gen t p).1 = Except.ok e) :
    ValidateEvent e = Except.ok () ∧
    e.sessionID = p.sessionID ∧ e.sessionID ≠ "" ∧
    e.eventID = gen t.ctr ∧ e.eventID ≠ "" ∧
    e.timestamp = p.timestamp ∧ 0 < e.timestamp := by
  obtain ⟨hval, hs, _, hts, _, _⟩ := ParsePacket_ok_spec gunzip q p hp
  obtain ⟨hsn, htp, _⟩ := validatePacket_ok_facts q hval
  obtain ⟨es, eid, ets⟩ := transform_ok_fields gen t p e he
  have hsne : e.sessionID ≠ "" := by rw [es, hs]; exact hsn
  have hide : e.eventID ≠ "" := by rw [eid]; exact hgen t.ctr
  have hpos : 0 < e.timestamp := by rw [ets, hts]; exact htp
  refine ⟨?_, es, hsne, eid, hide, ets, hpos⟩
  unfold ValidateEvent
  rw [if_neg hsne, if_neg hide, if_neg (by omega)]

def c9_event : SpatialEvent :=
  { sessionID := "s1", eventID := "id", timestamp := 5, anchors := [],
    meshes := [{ anchorID := "a1", verticesDelta := [1, 2], facesDelta := [],
                 isDelta := false }] }

theorem C9_transformed_events_valid_witness :
    ValidateEvent c9_event = Except.ok () ∧
    c9_event.sessionID = c4_packet.sessionID ∧ c9_event.sessionID ≠ "" ∧
    c9_event.eventID = "id" ∧ c9_event.eventID ≠ "" ∧
    c9_event.timestamp = c4_packet.timestamp ∧ 0 < c9_event.timestamp := by
  exact C9_transformed_events_valid (fun _ => "id")
    (by intro n; exact (by decide : ("id" : String) ≠ ""))
    (fun _ => none) c4_packet c4_packet Transformer.empty c9_event rfl rfl

/-! ## C5: exact error characterisation of `ParsePacket` -/

theorem validatePacket_eval_ok (p : StreamPacket) (h1 : p.sessionID ≠ "")
    (h2 : ¬ p.timestamp ≤ 0) (h3 : p.type ≠ "") :
    validatePacket p = Except.ok () := by
  unfold validatePacket
  rw [if_neg h1, if_neg h2, if_neg h3]

theorem ParsePacket_eval_invalid (gunzip : Buf → Option Buf) (p : StreamPacket)
    (e : String) (hv : validatePacket p = Except.error e) :
    ParsePacket gunzip p = Except.error ("invalid packet: " ++ e) := by
  unfold ParsePacket
  simp only [hv]

theorem ParsePacket_eval_pose (gunzip : Buf → Option Buf) (p : StreamPacket)
    (hvp : validatePacket p = Except.ok ()) (hTp : p.type = "pose") :
    ParsePacket gunzip p = parsePosePacket p := by
  unfold ParsePacket
  simp only [hvp, hTp, reduceIte]

theorem ParsePacket_eval_mesh (gunzip : Buf → Option Buf) (p : StreamPacket)
    (hvp : validatePacket p = Except.ok ()) (hTm : p.type = "mesh") :
    ParsePacket gunzip p = parseMeshPacket gunzip p := by
  unfold ParsePacket
  simp only [hvp, hTm, reduceIte]
  rw [if_neg (show ¬ ("mesh" : String) = "pose" by decide)]

theorem ParsePacket_eval_unknown (gunzip : Buf → Option Buf) (p : StreamPacket)
    (hvp : validatePacket p = Except.ok ()) (hTp : ¬ p.type = "pose")
    (hTm : ¬ p.type = "mesh") :
    ParsePacket gunzip p = Except.error ("unknown packet type: " ++ p.type) := by
  unfold ParsePacket
  simp only [hvp, if_neg hTp, if_neg hTm]

theorem parsePosePacket_eval_none (p : StreamPacket)
    (hp : p.data.pose = none) :
    parsePosePacket p = Except.error "missing pose data" := by
  unfold parsePosePacket
  simp only [hp]

theorem parsePosePacket_eval_err (p : StreamPacket) (pose : PoseData)
    (e : String) (hp : p.data.pose = some pose)
    (hverr : validatePose pose = Except.error e) :
    parsePosePacket p = Except.error ("invalid pose: " ++ e) := by
  unfold parsePosePacket
  simp only [hp, hverr]

theorem parsePosePacket_eval_ok (p : StreamPacket) (pose : PoseData)
    (hp : p.data.pose = some pose)
    (hvok : validatePose pose = Except.ok ()) :
    parsePosePacket p = Except.ok p := by
  unfold parsePosePacket
  simp only [hp, hvok]

theorem parseMeshPacket_eval_none (gunzip : Buf → Option Buf)
    (p : StreamPacket) (hm : p.data.mesh = none) :
    parseMeshPacket gunzip p = Except.error "missing mesh data" := by
  unfold parseMeshPacket
  simp only [hm]

theorem parseMeshPacket_eval_emptyv (gunzip : Buf → Option Buf)
    (p : StreamPacket) (m : MeshData) (hm : p.data.mesh = some m)
    (hv : m.vertices.length = 0) :
    parseMeshPacket gunzip p = Except.error "empty vertices data" := by
  unfold parseMeshPacket
  simp only [hm, if_pos hv]

theorem parseMeshPacket_eval_noanchor (gunzip : Buf → Option Buf)
    (p : StreamPacket) (m : MeshData) (hm : p.data.mesh = some m)
    (hv : ¬ m.vertices.length = 0) (ha : m.anchorID = "") :
    parseMeshPacket gunzip p = Except.error "missing anchor_id" := by
  unfold parseMeshPacket
  simp only [hm, if_neg hv, if_pos ha]

theorem parseMeshPacket_eval_okE (gunzip : Buf → Option Buf)
    (p : StreamPacket) (m : MeshData) (hm : p.data.mesh = some m)
    (hv : ¬ m.vertices.length = 0) (ha : ¬ m.anchorID = "") :
    ∃ out, parseMeshPacket gunzip p = Except.ok out := by
  unfold parseMeshPacket
  simp only [hm, if_neg hv, if_neg ha]
  exact ⟨_, rfl⟩

/-- C5: `ParsePacket` returns an error exactly when the session id is
empty, the timestamp is non-positive, the type is neither "pose" nor
"mesh", a pose packet has no payload or a position component strictly
outside [−1000, 1000] or a squared quaternion magnitude strictly outside
[0.9, 1.1], or a mesh packet has no payload, an empty anchor id, or an
empty vertex buffer; boundary values and empty faces are accepted. -/
theorem C5_parse_error_iff (gunzip : Buf → Option Buf) (p : StreamPacket) :
    (∃ e, ParsePacket gunzip p = Except.error e) ↔
      (p.sessionID = "" ∨ p.timestamp ≤ 0 ∨
       (p.type ≠ "pose" ∧ p.type ≠ "mesh") ∨
       (p.type = "pose" ∧ (p.data.pose = none ∨
         ∃ pose, p.data.pose = some pose ∧
           (pose.x < -1000 ∨ pose.x > 1000 ∨ pose.y < -1000 ∨ pose.y > 1000 ∨
            pose.z < -1000 ∨ pose.z > 1000 ∨
            quatMagnitudeSq pose < (9 : ℚ) / 10 ∨
            quatMagnitudeSq pose > (11 : ℚ) / 10))) ∨
       (p.type = "mesh" ∧ (p.data.mesh = none ∨
         ∃ m, p.data.mesh = some m ∧ (m.anchorID = "" ∨ m.vertices = [])))) := by
  by_cases hA : p.sessionID = ""
  · have hv : validatePacket p = Except.error "missing session_id" := by
      unfold validatePacket
      rw [if_pos hA]
    exact iff_of_true ⟨_, ParsePacket_eval_invalid gunzip p _ hv⟩ (Or.inl hA)
  by_cases hB : p.timestamp ≤ 0
  · have hv : validatePacket p = Except.error "invalid timestamp" := by
      unfold validatePacket
      rw [if_neg hA, if_pos hB]
    exact iff_of_true ⟨_, ParsePacket_eval_invalid gunzip p _ hv⟩
      (Or.inr (Or.inl hB))
  by_cases hTp : p.type = "pose"
  · have hvp := validatePacket_eval_ok p hA hB (by rw [hTp]; decide)
    by_cases hpn : p.data.pose = none
    · have hres : ParsePacket gunzip p = Except.error "missing pose data" := by
        rw [ParsePacket_eval_pose gunzip p hvp hTp]
        exact parsePosePacket_eval_none p hpn
      exact iff_of_true ⟨_, hres⟩
        (Or.inr (Or.inr (Or.inr (Or.inl ⟨hTp, Or.inl hpn⟩))))
    obtain ⟨pose, hp⟩ := Option.ne_none_iff_exists'.mp hpn
    by_cases hpos : pose.x < -1000 ∨ pose.x > 1000 ∨ pose.y < -1000 ∨
        pose.y > 1000 ∨ pose.z < -1000 ∨ pose.z > 1000
    · have hres : ParsePacket gunzip p =
          Except.error ("invalid pose: " ++ "pose position out of bounds") := by
        rw [ParsePacket_eval_pose gunzip p hvp hTp]
        exact parsePosePacket_eval_err p pose _ hp
          (by unfold validatePose; rw [if_pos hpos])
      refine iff_of_true ⟨_, hres⟩ ?_
      refine Or.inr (Or.inr (Or.inr (Or.inl ⟨hTp, Or.inr ⟨pose, hp, ?_⟩⟩)))
      tauto
    by_cases hmag : quatMagnitudeSq pose < (9 : ℚ) / 10 ∨
        quatMagnitudeSq pose > (11 : ℚ) / 10
    · have hres : ParsePacket gunzip p =
          Except.error ("invalid pose: " ++ "quaternion not normalized") := by
        rw [ParsePacket_eval_pose gunzip p hvp hTp]
        exact parsePosePacket_eval_err p pose _ hp
          (by unfold validatePose; rw [if_neg hpos, if_pos hmag])
      refine iff_of_true ⟨_, hres⟩ ?_
      refine Or.inr (Or.inr (Or.inr (Or.inl ⟨hTp, Or.inr ⟨pose, hp, ?_⟩⟩)))
      tauto
    · have hres : ParsePacket gunzip p = Except.ok p := by
        rw [ParsePacket_eval_pose gunzip p hvp hTp]
        exact parsePosePacket_eval_ok p pose hp
          (by unfold validatePose; rw [if_neg hpos, if_neg hmag])
      refine iff_of_false (by simp [hres]) ?_
      rintro (h | h | ⟨h, _⟩ | ⟨_, hcase⟩ | ⟨hmty, _⟩)
      · exact hA h
      · exact hB h
      · exact h hTp
      · rcases hcase with hnone | ⟨pose', hsome, bad⟩
        · exact hpn hnone
        · rw [hp] at hsome
          injection hsome with hsome
          subst hsome
          tauto
      · rw [hTp] at hmty
        exact absurd hmty (by decide)
  by_cases hTm : p.type = "mesh"
  · have hvp := validatePacket_eval_ok p hA hB (by rw [hTm]; decide)
    by_cases hmn : p.data.mesh = none
    · have hres : ParsePacket gunzip p = Except.error "missing mesh data" := by
        rw [ParsePacket_eval_mesh gunzip p hvp hTm]
        exact parseMeshPacket_eval_none gunzip p hmn
      exact iff_of_true ⟨_, hres⟩
        (Or.inr (Or.inr (Or.inr (Or.inr ⟨hTm, Or.inl hmn⟩))))
    obtain ⟨m, hm⟩ := Option.ne_none_iff_exists'.mp hmn
    by_cases hv : m.vertices.length = 0
    · have hres : ParsePacket gunzip p = Except.error "empty vertices data" := by
        rw [ParsePacket_eval_mesh gunzip p hvp hTm]
        exact parseMeshPacket_eval_emptyv gunzip p m hm hv
      exact iff_of_true ⟨_, hres⟩
        (Or.inr (Or.inr (Or.inr (Or.inr ⟨hTm, Or.inr
          ⟨m, hm, Or.inr (List.length_eq_zero.mp hv)⟩⟩))))
    by_cases ha : m.anchorID = ""
    · have hres : ParsePacket gunzip p = Except.error "missing anchor_id" := by
        rw [ParsePacket_eval_mesh gunzip p hvp hTm]
        exact parseMeshPacket_eval_noanchor gunzip p m hm hv ha
      exact iff_of_true ⟨_, hres⟩
        (Or.inr (Or.inr (Or.inr (Or.inr ⟨hTm, Or.inr ⟨m, hm, Or.inl ha⟩⟩))))
    · obtain ⟨out, hout⟩ := parseMeshPacket_eval_okE gunzip p m hm hv ha
      have hres : ParsePacket gunzip p = Except.ok out := by
        rw [ParsePacket_eval_mesh gunzip p hvp hTm]
        exact hout
      refine iff_of_false (by simp [hres]) ?_
      rintro (h | h | ⟨_, h⟩ | ⟨hpty, _⟩ | ⟨_, hcase⟩)
      · exact hA h
      · exact hB h
      · exact h hTm
      · rw [hTm] at hpty
        exact absurd hpty (by decide)
      · rcases hcase with hnone | ⟨m', hsome, bad⟩
        · exact hmn hnone
        · rw [hm] at hsome
          injection hsome with hsome
          subst hsome
          rcases bad with h | h
          · exact ha h
          · exact hv (by rw [h]; rfl)
  · refine iff_of_true ?_ (Or.inr (Or.inr (Or.inl ⟨hTp, hTm⟩)))
    by_cases h0 : p.type = ""
    · have hv : validatePacket p = Except.error "missing packet type" := by
        unfold validatePacket
        rw [if_neg hA, if_neg hB, if_pos h0]
      exact ⟨_, ParsePacket_eval_invalid gunzip p _ hv⟩
    · exact ⟨_, ParsePacket_eval_unknown gunzip p
        (validatePacket_eval_ok p hA hB h0) hTp hTm⟩

/-! ## C3: anchor ids are stable per session and distinct across sessions -/

theorem string_append_left_cancel (s t u : String) (h : s ++ t = s ++ u) :
    t = u := by
  have hd : (s ++ t).data = (s ++ u).data := congrArg String.data h
  simp [String.data_append] at hd
  exact String.ext hd

theorem mapLookup_filter_ne {β : Type} (m : List (String × β)) (k s : String)
    (h : s ≠ k) :
    mapLookup (m.filter (fun p => p.1 ≠ k)) s = mapLookup m s := by
  induction m with
  | nil => rfl
  | cons q rest ih =>
    obtain ⟨qk, qv⟩ := q
    simp only [ne_eq, decide_not] at ih ⊢
    by_cases hq : qk = k
    · subst hq
      simp [mapLookup, List.filter_cons, h, ih]
    · simp only [List.filter_cons]
      by_cases hsq : s = qk
      · subst hsq
        simp [mapLookup, hq]
      · simp [mapLookup, hq, hsq, ih]

theorem mapLookup_set {β : Type} (m : List (String × β)) (k s : String) (v : β) :
    mapLookup (mapSet m k v) s = if s = k then some v else mapLookup m s := by
  unfold mapSet
  by_cases hsk : s = k
  · simp [mapLookup, hsk]
  · have hf := mapLookup_filter_ne m k s hsk
    simp only [ne_eq, decide_not] at hf
    simp [mapLookup, hsk, hf]

theorem mapLookup_mem {β : Type} (m : List (String × β)) (s : String) (v : β)
    (h : mapLookup m s = some v) : (s, v) ∈ m := by
  induction m with
  | nil => simp [mapLookup] at h
  | cons q rest ih =>
    obtain ⟨qk, qv⟩ := q
    by_cases hq : s = qk
    · subst hq
      simp [mapLookup] at h
      subst h
      exact List.mem_cons_self _ _
    · simp [mapLookup, hq] at h
      exact List.mem_cons_of_mem _ (ih h)

theorem mapLookup_none_keys {β : Type} (m : List (String × β)) (s : String)
    (h : mapLookup m s = none) : ∀ q ∈ m, q.1 ≠ s := by
  induction m with
  | nil =>
    intro q hq
    exact absurd hq (by simp)
  | cons q rest ih =>
    obtain ⟨qk, qv⟩ := q
    intro r hr
    by_cases hq : s = qk
    · subst hq
      simp [mapLookup] at h
    · simp [mapLookup, hq] at h
      rcases List.mem_cons.mp hr with rfl | hr'
      · exact fun hc => hq hc.symm
      · exact ih h r hr'

theorem filter_ne_eq_self {β : Type} (m : List (String × β)) (s : String)
    (h : mapLookup m s = none) : m.filter (fun p => p.1 ≠ s) = m := by
  apply List.filter_eq_self.mpr
  intro a ha
  simpa using mapLookup_none_keys m s h a ha

/-- Invariant of the Transformer state: every stored anchor id was minted
as `anchor_<gen i>` for some already-consumed stream position, and no two
entries share a value. -/
def anchorValuesOk (gen : Nat → String) (t : Transformer) : Prop :=
  (∀ q ∈ t.anchorMap, ∃ i, i < t.ctr ∧ q.2 = "anchor_" ++ gen i) ∧
  (t.anchorMap.map Prod.snd).Nodup

theorem getOrCreate_lookup (gen : Nat → String) (t : Transformer) (s : String) :
    mapLookup (getOrCreateAnchorID gen t s).2.anchorMap s =
      some (getOrCreateAnchorID gen t s).1 := by
  unfold getOrCreateAnchorID
  cases hl : mapLookup t.anchorMap s with
  | some a => simp [hl]
  | none => simp [hl, mapLookup_set]

theorem getOrCreate_mono (gen : Nat → String) (t : Transformer) (s s' : String)
    (a : String) (h : mapLookup t.anchorMap s' = some a) :
    mapLookup (getOrCreateAnchorID gen t s).2.anchorMap s' = some a := by
  unfold getOrCreateAnchorID
  cases hl : mapLookup t.anchorMap s with
  | some b => simpa using h
  | none =>
    simp only []
    rw [mapLookup_set]
    by_cases hss : s' = s
    · subst hss
      rw [h] at hl
      cases hl
    · rw [if_neg hss]
      exact h

theorem getOrCreate_inv (gen : Nat → String) (hinj : Function.Injective gen)
    (t : Transformer) (s : String) (hI : anchorValuesOk gen t) :
    anchorValuesOk gen (getOrCreateAnchorID gen t s).2 := by
  unfold getOrCreateAnchorID
  cases hl : mapLookup t.anchorMap s with
  | some a => simpa using hI
  | none =>
    simp only []
    constructor
    · intro q hq
      simp only [mapSet, filter_ne_eq_self t.anchorMap s hl] at hq
      rcases List.mem_cons.mp hq with rfl | hq'
      · exact ⟨t.ctr, Nat.lt_succ_self _, rfl⟩
      · obtain ⟨i, hi, he⟩ := hI.1 q hq'
        exact ⟨i, Nat.lt_succ_of_lt hi, he⟩
    · simp only [mapSet, filter_ne_eq_self t.anchorMap s hl, List.map_cons]
      refine List.nodup_cons.mpr ⟨?_, hI.2⟩
      intro hmem
      obtain ⟨q, hq, he⟩ := List.mem_map.mp hmem
      obtain ⟨i, hi, hqe⟩ := hI.1 q hq
      rw [hqe] at he
      exact absurd (hinj (string_append_left_cancel _ _ _ he)) (by omega)

theorem Transform_inv (gen : Nat → String) (hinj : Function.Injective gen)
    (t : Transformer) (packet : StreamPacket) (hI : anchorValuesOk gen t) :
    anchorValuesOk gen (Transform gen t packet).2 := by
  have hI' : anchorValuesOk gen { t with ctr := t.ctr + 1 } := by
    refine ⟨?_, hI.2⟩
    intro q hq
    obtain ⟨i, hi, he⟩ := hI.1 q hq
    exact ⟨i, Nat.lt_succ_of_lt hi, he⟩
  simp only [Transform]
  by_cases hp : packet.type = "pose"
  · rw [if_pos hp]
    unfold transformPose
    cases packet.data.pose
    · exact hI'
    · exact getOrCreate_inv gen hinj _ _ hI'
  · rw [if_neg hp]
    by_cases hm : packet.type = "mesh"
    · rw [if_pos hm]
      unfold transformMesh
      cases packet.data.mesh
      · exact hI'
      · exact hI'
    · rw [if_neg hm]
      exact hI'

theorem Transform_mono (gen : Nat → String) (t : Transformer)
    (packet : StreamPacket) (s a : String)
    (h : mapLookup t.anchorMap s = some a) :
    mapLookup (Transform gen t packet).2.anchorMap s = some a := by
  simp only [Transform]
  by_cases hp : packet.type = "pose"
  · rw [if_pos hp]
    unfold transformPose
    cases packet.data.pose
    · exact h
    · exact getOrCreate_mono gen _ _ s a h
  · rw [if_neg hp]
    by_cases hm : packet.type = "mesh"
    · rw [if_pos hm]
      unfold transformMesh
      cases packet.data.mesh
      · exact h
      · exact h
    · rw [if_neg hm]
      exact h

theorem Transform_emit (gen : Nat → String) (t : Transformer)
    (packet : StreamPacket) (e : SpatialEvent)
    (h : (Transform gen t packet).1 = Except.ok e) :
    ∀ a ∈ e.anchors, e.sessionID = packet.sessionID ∧
      mapLookup (Transform gen t packet).2.anchorMap e.sessionID = some a.id := by
  intro a ha
  simp only [Transform] at h ⊢
  by_cases hp : packet.type = "pose"
  · rw [if_pos hp] at h ⊢
    unfold transformPose at h ⊢
    cases hpp : packet.data.pose with
    | none =>
      simp only [hpp] at h
      injection h with h
      subst h
      exact absurd ha (by simp)
    | some pose =>
      simp only [hpp] at h ⊢
      injection h with h
      subst h
      simp only [List.nil_append, List.mem_singleton] at ha
      subst ha
      exact ⟨rfl, getOrCreate_lookup gen _ packet.sessionID⟩
  · rw [if_neg hp] at h ⊢
    by_cases hm : packet.type = "mesh"
    · rw [if_pos hm] at h ⊢
      unfold transformMesh at h ⊢
      cases hpp : packet.data.mesh with
      | none =>
        simp only [hpp] at h
        injection h with h
        subst h
        exact absurd ha (by simp)
      | some m =>
        simp only [hpp] at h
        injection h with h
        subst h
        exact absurd ha (by simp)
    · rw [if_neg hm] at h ⊢
      injection h with h
      subst h
      exact absurd ha (by simp)

theorem runTransform_spec (gen : Nat → String) (hinj : Function.Injective gen) :
    ∀ (packets : List StreamPacket) (t : Transformer), anchorValuesOk gen t →
      anchorValuesOk gen (runTransform gen t packets).2 ∧
      (∀ s a, mapLookup t.anchorMap s = some a →
        mapLookup (runTransform gen t packets).2.anchorMap s = some a) ∧
      (∀ e ∈ (runTransform gen t packets).1, ∀ a ∈ e.anchors,
        mapLookup (runTransform gen t packets).2.anchorMap e.sessionID
          = some a.id) := by
  intro packets
  induction packets with
  | nil =>
    intro t hI
    refine ⟨hI, fun s a h => h, ?_⟩
    intro e he
    exact absurd he (by simp [runTransform])
  | cons p ps ih =>
    intro t hI
    have hI1 : anchorValuesOk gen (Transform gen t p).2 :=
      Transform_inv gen hinj t p hI
    cases hT : Transform gen t p with
    | mk r t1 =>
      rw [hT] at hI1
      obtain ⟨hIfin, hmono, hemit⟩ := ih t1 hI1
      cases r with
      | ok e0 =>
        have hrun : runTransform gen t (p :: ps) =
            (e0 :: (runTransform gen t1 ps).1, (runTransform gen t1 ps).2) := by
          rw [runTransform, hT]
        refine ⟨by rw [hrun]; exact hIfin, ?_, ?_⟩
        · intro s a h
          rw [hrun]
          apply hmono
          have hm := Transform_mono gen t p s a h
          rw [hT] at hm
          exact hm
        · intro e he a ha
          rw [hrun] at he ⊢
          rcases List.mem_cons.mp he with rfl | he'
          · have hem := Transform_emit gen t p e (by rw [hT]) a ha
            obtain ⟨hsess, hlk⟩ := hem
            rw [hT] at hlk
            exact hmono _ _ hlk
          · exact hemit e he' a ha
      | error err =>
        have hrun : runTransform gen t (p :: ps) =
            ((runTransform gen t1 ps).1, (runTransform gen t1 ps).2) := by
          rw [runTransform, hT]
        refine ⟨by rw [hrun]; exact hIfin, ?_, ?_⟩
        · intro s a h
          rw [hrun]
          apply hmono
          have hm := Transform_mono gen t p s a h
          rw [hT] at hm
          exact hm
        · intro e he a ha
          rw [hrun] at he ⊢
          exact hemit e he a ha

theorem anchor_values_distinct (gen : Nat → String) (t : Transformer)
    (hI : anchorValuesOk gen t) (s₁ s₂ a₁ a₂ : String)
    (h₁ : mapLookup t.anchorMap s₁ = some a₁)
    (h₂ : mapLookup t.anchorMap s₂ = some a₂) (hne : s₁ ≠ s₂) : a₁ ≠ a₂ := by
  intro hcon
  subst hcon
  have m₁ := mapLookup_mem _ _ _ h₁
  have m₂ := mapLookup_mem _ _ _ h₂
  have heq := List.inj_on_of_nodup_map hI.2 m₁ m₂ rfl
  exact hne (congrArg Prod.fst heq)

/-- C3: within one Transformer lifetime started from `Transformer.empty`,
all anchors emitted for one session id carry the same anchor id, and —
assuming the uuid generator never repeats — anchors of two distinct
session ids carry distinct anchor ids. -/
theorem C3_anchor_id_stability (gen : Nat → String)
    (hinj : Function.Injective gen) (packets : List StreamPacket) :
    ∀ e₁ ∈ (runTransform gen Transformer.empty packets).1,
    ∀ e₂ ∈ (runTransform gen Transformer.empty packets).1,
    ∀ a₁ ∈ e₁.anchors, ∀ a₂ ∈ e₂.anchors,
      (e₁.sessionID = e₂.sessionID → a₁.id = a₂.id) ∧
      (e₁.sessionID ≠ e₂.sessionID → a₁.id ≠ a₂.id) := by
  obtain ⟨hIfin, _, hemit⟩ := runTransform_spec gen hinj packets
    Transformer.empty ⟨fun q hq => absurd hq (by simp [Transformer.empty]),
      by simp [Transformer.empty]⟩
  intro e₁ he₁ e₂ he₂ a₁ ha₁ a₂ ha₂
  have l₁ := hemit e₁ he₁ a₁ ha₁
  have l₂ := hemit e₂ he₂ a₂ ha₂
  constructor
  · intro hs
    rw [hs] at l₁
    exact Option.some.inj (l₁.symm.trans l₂)
  · intro hs
    exact anchor_values_distinct gen _ hIfin _ _ _ _ l₁ l₂ hs

/-- A concretely injective uuid stream for the C3 witness. -/
def wgen : Nat → String := fun n => String.mk (List.replicate n 'a')

theorem wgen_inj : Function.Injective wgen := by
  intro m n h
  have hl := congrArg (fun s => s.data.length) h
  simpa [wgen] using hl

def wpose : PoseData := { x := 0, y := 0, z := 0, rotation := (0, 0, 0, 1) }

def wpacket (s : String) : StreamPacket :=
  { sessionID := s, frameNumber := 1, timestamp := 5, type := "pose",
    data := { pose := some wpose, mesh := none } }

def wpackets : List StreamPacket := [wpacket "s1", wpacket "s1", wpacket "s2"]

def wevents : List SpatialEvent :=
  (runTransform wgen Transformer.empty wpackets).1

theorem C3_anchor_id_stability_witness :
    ((wevents.getD 0 default).anchors.getD 0 default).id
        = ((wevents.getD 1 default).anchors.getD 0 default).id ∧
    ((wevents.getD 0 default).anchors.getD 0 default).id
        ≠ ((wevents.getD 2 default).anchors.getD 0 default).id := by
  have h := C3_anchor_id_stability wgen wgen_inj wpackets
  constructor
  · exact (h (wevents.getD 0 default) (by decide)
      (wevents.getD 1 default) (by decide)
      ((wevents.getD 0 default).anchors.getD 0 default) (by decide)
      ((wevents.getD 1 default).anchors.getD 0 default) (by decide)).1 (by decide)
  · exact (h (wevents.getD 0 default) (by decide)
      (wevents.getD 2 default) (by decide)
      ((wevents.getD 0 default).anchors.getD 0 default) (by decide)
      ((wevents.getD 2 default).anchors.getD 0 default) (by decide)).2 (by decide)
